import Mathlib

/-!
Verification of the COTS feed-interpretation core of `kirin/cots/model_maker.py`:
stop-list filtering (`_retrieve_interesting_pdp`), projected-time resolution
(`_retrieve_projected_time`), per-stop/per-direction status classification and
trip-update building (`KirinModelBuilder._make_trip_update`, `_get_vjs`).

Modelling conventions:
- JSON records become Lean structures; a nullable/optional JSON field becomes an
  `Option` field (`none` = absent or JSON null).  Required fields (read through
  `get_value(..., nullable=False)`) are plain fields when the interface contract
  guarantees them, and `Option` fields checked explicitly at the read site when
  the code itself may fail there (then the failure is a `FeedError.missingField`).
- Python exceptions (`InvalidArguments`) become `Except FeedError`, with one
  `FeedError` constructor per distinct raise site relevant here.
- Python truthiness on optional strings (`if not st_message_id`) is modelled by
  `strTruthy` (absent and empty string are falsy); truthiness of an optional
  candidate list (`if list_proj_time`) is matched on `none` / `some []` / non-empty.
- External collaborators (navitia stop matching `_get_navitia_stop_time`,
  message lookup `message_handler.get_message`, date parsing, vj lookup
  `_get_navitia_vjs`) are out of `src/` and are modelled as function parameters
  or as the raw request data handed to them.
- `datetime.timedelta` produced by `as_duration` is modelled by `Duration`, a
  signed number of seconds.
- Diagnostic emission (`_record_and_log` / `record_internal_failure`) is
  modelled as a `List String` of emitted log lines, returned alongside results.
-/

/-- A projected arrival/departure time entry (`{source, pronosticIV}` in the
feed); `pronosticIV` is the forecast delay in seconds, possibly negative. -/
structure ProjCandidate where
  source : Option String := none
  pronosticIV : Option Int := none
deriving Repr, DecidableEq

/-- A traveler time-block (`horaireVoyageurDepart` / `horaireVoyageurArrivee`):
a `dateHeure` datetime string and an optional `statutCirculationOPE` code. -/
structure TimeBlock where
  dateHeure : String := ""
  statutCirculationOPE : Option String := none
deriving Repr, DecidableEq

/-- A "Point de Parcours" (one stop of the circulation, an element of
`listePointDeParcours`).  The `cr`/`ci`/`ch` matching keys are only handed to
the external stop matcher and are folded into the `navMatch` parameter below. -/
structure Pdp where
  typeArret : Option String := none
  horaireVoyageurDepart : Option TimeBlock := none
  horaireVoyageurArrivee : Option TimeBlock := none
  sourceHoraireProjeteArriveeReference : Option String := none
  listeHoraireProjeteArrivee : Option (List ProjCandidate) := none
  sourceHoraireProjeteDepartReference : Option String := none
  listeHoraireProjeteDepart : Option (List ProjCandidate) := none
  idMotifInterneDepartReference : Option String := none
  idMotifInterneArriveeReference : Option String := none
deriving Repr, DecidableEq

/-- The `nouvelleVersion` object, restricted to the fields the builder reads. -/
structure JsonTrain where
  numeroCourse : String := ""
  statutOperationnel : String := ""
  listePointDeParcours : List Pdp := []
  idMotifInterneReference : Option String := none
deriving Repr, DecidableEq

/-- One `InvalidArguments` raise site of the modelled code. -/
inductive FeedError where
  /-- `get_value` on a missing required field, carrying the key. -/
  | missingField (key : String)
  /-- `_retrieve_projected_time`: a source-reference matching no candidate. -/
  | sourceNotFound (sourceRef : String)
  /-- `_retrieve_projected_time`: several candidates but no source-reference. -/
  | multipleProjectedNoSource
  /-- `_get_vjs`: the filtered stop list is empty. -/
  | noValidStopTime
  /-- `_make_trip_update`: unexpected `statutCirculationOPE` value, carrying
  the offending code and the direction (`Arrivee` or `Depart`). -/
  | invalidStatusCode (code : String) (direction : String)
deriving Repr, DecidableEq

/-- Model of `datetime.timedelta` restricted to what `as_duration` produces: a signed
whole number of seconds. -/
structure Duration where
  seconds : Int
deriving Repr, DecidableEq

/-- Model of `as_duration(seconds)`: `None` stays `None`, otherwise the number of
seconds becomes a timedelta (negative values allowed). -/
def as_duration (seconds : Option Int) : Option Duration :=
  seconds.map Duration.mk

/-- Python truthiness of an optional string: absent and `""` are falsy. -/
def strTruthy : Option String → Bool
  | none => false
  | some s => !(s == "")

/-- Model of `is_station(pdp)`: the stop-type code is absent or in the allow-set. -/
def is_station (pdp : Pdp) : Bool :=
  match pdp.typeArret with
  | none => true
  | some t => t == "" || t == "CD" || t == "CH" || t == "FD" || t == "FH"

/-- The look-ahead of `_retrieve_interesting_pdp` (`any(... for follow_pdp in
list_pdp[idx:])`): some point of the list is a station with an arrival block. -/
def hasFollowingArrival (l : List Pdp) : Bool :=
  l.any (fun p => p.horaireVoyageurArrivee.isSome && is_station p)

/-- The loop of `_retrieve_interesting_pdp`; the Bool is the `picked_one`
flag.  Skipping branches mirror the `continue`s, the `[]` branch the `break`
(the caller keeps only what was already accumulated before the break). -/
def retrieve_interesting_pdp_aux : List Pdp → Bool → List Pdp
  | [], _ => []
  | pdp :: rest, picked =>
    if !picked && pdp.horaireVoyageurDepart.isNone then
      retrieve_interesting_pdp_aux rest picked
    else if !(is_station pdp) then
      retrieve_interesting_pdp_aux rest picked
    else if pdp.horaireVoyageurDepart.isNone && pdp.horaireVoyageurArrivee.isNone then
      retrieve_interesting_pdp_aux rest picked
    else if pdp.horaireVoyageurArrivee.isNone && !(hasFollowingArrival (pdp :: rest)) then
      []
    else
      pdp :: retrieve_interesting_pdp_aux rest true

/-- Model of `_retrieve_interesting_pdp(list_pdp)`: the Stop Relevance Filter. -/
def retrieve_interesting_pdp (list_pdp : List Pdp) : List Pdp :=
  retrieve_interesting_pdp_aux list_pdp false

/-- The scan of `_retrieve_projected_time`: first candidate whose non-null
`source` equals the reference. -/
def find_projected_by_source (ref : String) : List ProjCandidate → Option ProjCandidate
  | [] => none
  | p :: rest =>
    match p.source with
    | some s => if s == ref then some p else find_projected_by_source ref rest
    | none => find_projected_by_source ref rest

/-- Model of `_retrieve_projected_time(source_ref, list_proj_time)`. -/
def retrieve_projected_time (source_ref : Option String)
    (list_proj_time : Option (List ProjCandidate)) :
    Except FeedError (Option ProjCandidate) :=
  match source_ref with
  | some ref =>
    match list_proj_time with
    | some l =>
      match find_projected_by_source ref l with
      | some p => .ok (some p)
      | none => .error (.sourceNotFound ref)
    | none => .error (.sourceNotFound ref)
  | none =>
    match list_proj_time with
    | some [] => .ok none
    | some [p] => .ok (some p)
    | some (_ :: _ :: _) => .error .multipleProjectedNoSource
    | none => .ok none

/-- The `arrival_departure_toggle` of the classifier loop. -/
inductive Direction where
  | arrivee
  | depart
deriving Repr, DecidableEq

/-- The string the toggle takes in `['Arrivee', 'Depart']`. -/
def Direction.name : Direction → String
  | .arrivee => "Arrivee"
  | .depart => "Depart"

/-- Reads `pdp['horaireVoyageur{toggle}']`. -/
def horaireVoyageur : Direction → Pdp → Option TimeBlock
  | .arrivee, pdp => pdp.horaireVoyageurArrivee
  | .depart, pdp => pdp.horaireVoyageurDepart

/-- Reads `pdp['sourceHoraireProjete{toggle}Reference']`. -/
def sourceHoraireProjeteReference : Direction → Pdp → Option String
  | .arrivee, pdp => pdp.sourceHoraireProjeteArriveeReference
  | .depart, pdp => pdp.sourceHoraireProjeteDepartReference

/-- Reads `pdp['listeHoraireProjete{toggle}']`. -/
def listeHoraireProjete : Direction → Pdp → Option (List ProjCandidate)
  | .arrivee, pdp => pdp.listeHoraireProjeteArrivee
  | .depart, pdp => pdp.listeHoraireProjeteDepart

/-- The normalized per-stop output (`model.StopTimeUpdate`); `navStop` stands
for the stop reference obtained from the external stop matcher, `message` for
the resolved disruption message. -/
structure StopTimeUpdate where
  navStop : String
  message : Option String := none
  arrival_status : Option String := none
  arrival_delay : Option Duration := none
  departure_status : Option String := none
  departure_delay : Option Duration := none
deriving Repr, DecidableEq

/-- The normalized per-trip output (`model.TripUpdate`), restricted to the
fields the builder assigns. -/
structure TripUpdate where
  status : Option String := none
  message : Option String := none
  stop_time_updates : List StopTimeUpdate := []
deriving Repr, DecidableEq

/-- Model of `setattr(st_update, _status_map[toggle], s)`. -/
def setStatus (d : Direction) (s : String) (st : StopTimeUpdate) : StopTimeUpdate :=
  match d with
  | .arrivee => { st with arrival_status := some s }
  | .depart => { st with departure_status := some s }

/-- Model of `setattr(st_update, _delay_map[toggle], v)`. -/
def setDelay (d : Direction) (v : Option Duration) (st : StopTimeUpdate) : StopTimeUpdate :=
  match d with
  | .arrivee => { st with arrival_delay := v }
  | .depart => { st with departure_delay := v }

/-- The diagnostic line logged for `SUPPRESSION_DETOURNEMENT`. -/
def notHandledCompletelyDiag (code : String) : String :=
  "nouvelleVersion/listePointDeParcours/statutCirculationOPE == \"" ++ code ++
    "\" is not handled completely (yet), only removal"

/-- The diagnostic line logged for `CREATION` and `DETOURNEMENT`. -/
def notHandledDiag (code : String) : String :=
  "nouvelleVersion/listePointDeParcours/statutCirculationOPE == \"" ++ code ++
    "\" is not handled (yet)"

/-- The diagnostic line logged for a trip-level `AJOUTEE` status. -/
def ajouteeDiag : String :=
  "nouvelleVersion/statutOperationnel == \"AJOUTEE\" is not handled (yet)"

/-- One iteration of the classifier loop `for arrival_departure_toggle in
['Arrivee', 'Depart']` of `_make_trip_update`, acting on `st_update` and
returning the diagnostic lines it records. -/
def processDirection (st : StopTimeUpdate) (d : Direction) (pdp : Pdp) :
    Except FeedError (StopTimeUpdate × List String) :=
  match horaireVoyageur d pdp with
  | none => .ok (st, [])
  | some tb =>
    match tb.statutCirculationOPE with
    | none => do
      let cand ← retrieve_projected_time (sourceHoraireProjeteReference d pdp)
        (listeHoraireProjete d pdp)
      match cand with
      | none => .ok (st, [])
      | some c =>
        match c.pronosticIV with
        | none => .ok (st, [])
        | some cots_delay =>
          .ok (setDelay d (as_duration (some cots_delay)) (setStatus d "update" st), [])
    | some code =>
      if code == "SUPPRESSION" then
        .ok (setStatus d "delete" st, [])
      else if code == "SUPPRESSION_DETOURNEMENT" then
        .ok (setStatus d "delete" st, [notHandledCompletelyDiag code])
      else if code == "CREATION" then
        .ok (st, [notHandledDiag code])
      else if code == "DETOURNEMENT" then
        .ok (st, [notHandledDiag code])
      else
        .error (.invalidStatusCode code (Direction.name d))

/-- The per-stop message enrichment: departure message-reference id first,
falling back on the arrival one, resolved through the external message lookup
(`msgResolver` stands for `message_handler.get_message`). -/
def stopMessage (msgResolver : String → Option String) (pdp : Pdp) : Option String :=
  let st_message_id :=
    if strTruthy pdp.idMotifInterneDepartReference then pdp.idMotifInterneDepartReference
    else pdp.idMotifInterneArriveeReference
  if strTruthy st_message_id then msgResolver (st_message_id.getD "") else none

/-- The per-stop body of `_make_trip_update`: build the `StopTimeUpdate` for
one pdp (stop reference `navStop` already matched), running the classifier on
the arrival then the departure direction. -/
def makeStopTimeUpdate (navStop : String) (msgResolver : String → Option String)
    (pdp : Pdp) : Except FeedError (StopTimeUpdate × List String) := do
  let st0 : StopTimeUpdate := { navStop := navStop, message := stopMessage msgResolver pdp }
  let (st1, l1) ← processDirection st0 .arrivee pdp
  let (st2, l2) ← processDirection st1 .depart pdp
  .ok (st2, l1 ++ l2)

/-- The `for pdp in pdps` loop of `_make_trip_update`: `navMatch` stands for
the external `_get_navitia_stop_time` matcher (`none` = stop not resolved,
which skips the pdp and continues). -/
def processPdps (navMatch : Pdp → Option String) (msgResolver : String → Option String) :
    List Pdp → Except FeedError (List StopTimeUpdate × List String)
  | [] => .ok ([], [])
  | pdp :: rest =>
    match navMatch pdp with
    | none => processPdps navMatch msgResolver rest
    | some navStop => do
      let (st, l1) ← makeStopTimeUpdate navStop msgResolver pdp
      let (sts, l2) ← processPdps navMatch msgResolver rest
      .ok (st :: sts, l1 ++ l2)

/-- The trip-level message enrichment of `_make_trip_update`. -/
def tripMessage (msgResolver : String → Option String) (json_train : JsonTrain) :
    Option String :=
  if strTruthy json_train.idMotifInterneReference then
    msgResolver (json_train.idMotifInterneReference.getD "")
  else none

/-- Model of `KirinModelBuilder._make_trip_update(vj, json_train)` for one matched trip
instance, with the external collaborators as parameters; returns the built
`TripUpdate` and the diagnostic lines recorded along the way. -/
def makeTripUpdate (navMatch : Pdp → Option String) (msgResolver : String → Option String)
    (json_train : JsonTrain) : Except FeedError (TripUpdate × List String) :=
  let tu0 : TripUpdate := { status := none, message := tripMessage msgResolver json_train }
  if json_train.statutOperationnel == "SUPPRIMEE" then
    .ok ({ tu0 with status := some "delete", stop_time_updates := [] }, [])
  else if json_train.statutOperationnel == "AJOUTEE" then
    .ok (tu0, [ajouteeDiag])
  else
    match processPdps navMatch msgResolver
        (retrieve_interesting_pdp json_train.listePointDeParcours) with
    | .error e => .error e
    | .ok (sts, logs) =>
      .ok ({ tu0 with status := some "update", stop_time_updates := sts }, logs)

/-- The data `_get_vjs` hands to the external vj lookup `_get_navitia_vjs`:
train number and the raw `dateHeure` strings bounding the service (their
parsing by `dateutil` is external). -/
structure VjQuery where
  train_numbers : String
  vj_start : String
  vj_end : String
deriving Repr, DecidableEq

/-- Model of `KirinModelBuilder._get_vjs(json_train)` up to the external lookup call:
filter the stop list, reject an empty result, and extract the service start
time from the first relevant stop's departure block and the service end time
from the last relevant stop's arrival block (both reads non-nullable). -/
def getVjsQuery (json_train : JsonTrain) : Except FeedError VjQuery :=
  match retrieve_interesting_pdp json_train.listePointDeParcours with
  | [] => .error .noValidStopTime
  | first :: rest =>
    match first.horaireVoyageurDepart with
    | none => .error (.missingField "horaireVoyageurDepart")
    | some dep =>
      match ((first :: rest).getLast (List.cons_ne_nil first rest)).horaireVoyageurArrivee with
      | none => .error (.missingField "horaireVoyageurArrivee")
      | some arr =>
        .ok { train_numbers := json_train.numeroCourse,
              vj_start := dep.dateHeure, vj_end := arr.dateHeure }

/-! ### Lemmas about the projected-time scan -/

theorem find_projected_mem_of_exists (ref : String) (l : List ProjCandidate)
    (h : ∃ p ∈ l, p.source = some ref) :
    ∃ q, find_projected_by_source ref l = some q ∧ q ∈ l ∧ q.source = some ref := by
  induction l with
  | nil => simp at h
  | cons p rest ih =>
    rcases h with ⟨w, hw, hsrc⟩
    rcases List.mem_cons.mp hw with hweq | hwrest
    · subst hweq
      exact ⟨w, by simp [find_projected_by_source, hsrc], List.mem_cons_self _ _, hsrc⟩
    · match hps : p.source with
      | some s =>
        by_cases hse : s = ref
        · exact ⟨p, by simp [find_projected_by_source, hps, hse], List.mem_cons_self _ _,
            by rw [hps, hse]⟩
        · rcases ih ⟨w, hwrest, hsrc⟩ with ⟨q, hfind, hqmem, hqsrc⟩
          exact ⟨q, by simp [find_projected_by_source, hps, hse, hfind], List.mem_cons_of_mem _ hqmem, hqsrc⟩
      | none =>
        rcases ih ⟨w, hwrest, hsrc⟩ with ⟨q, hfind, hqmem, hqsrc⟩
        exact ⟨q, by simp [find_projected_by_source, hps, hfind], List.mem_cons_of_mem _ hqmem, hqsrc⟩

theorem find_projected_none_of_no_match (ref : String) (l : List ProjCandidate)
    (h : ∀ p ∈ l, p.source ≠ some ref) :
    find_projected_by_source ref l = none := by
  induction l with
  | nil => rfl
  | cons p rest ih =>
    have hp := h p (List.mem_cons_self _ _)
    have hrest := ih (fun q hq => h q (List.mem_cons_of_mem _ hq))
    match hps : p.source with
    | some s =>
      have hse : ¬ (s = ref) := fun he => hp (by rw [hps, he])
      simp [find_projected_by_source, hps, hse, hrest]
    | none => simp [find_projected_by_source, hps, hrest]

/-- C2: the Projected-Time Resolver's exact case analysis: with a source
reference it returns a candidate whose source equals the reference and fails
with `sourceNotFound` when no candidate matches (also for an empty or absent
list); with no reference it returns the sole candidate of a singleton list,
fails with `multipleProjectedNoSource` on two or more candidates, and returns
none on an empty or absent list. -/
theorem C2_projected_time_resolver :
    (∀ (r : String) (l : List ProjCandidate), (∃ p ∈ l, p.source = some r) →
      ∃ p, retrieve_projected_time (some r) (some l) = .ok (some p) ∧
        p ∈ l ∧ p.source = some r) ∧
    (∀ (r : String) (l : List ProjCandidate), (∀ p ∈ l, p.source ≠ some r) →
      retrieve_projected_time (some r) (some l) = .error (.sourceNotFound r)) ∧
    (∀ r : String, retrieve_projected_time (some r) none = .error (.sourceNotFound r)) ∧
    (∀ p : ProjCandidate, retrieve_projected_time none (some [p]) = .ok (some p)) ∧
    (∀ l : List ProjCandidate, 2 ≤ l.length →
      retrieve_projected_time none (some l) = .error .multipleProjectedNoSource) ∧
    retrieve_projected_time none (some []) = .ok none ∧
    retrieve_projected_time none none = .ok none := by
  refine ⟨?_, ?_, fun r => rfl, fun p => rfl, ?_, rfl, rfl⟩
  · intro r l h
    rcases find_projected_mem_of_exists r l h with ⟨q, hfind, hqmem, hqsrc⟩
    exact ⟨q, by simp [retrieve_projected_time, hfind], hqmem, hqsrc⟩
  · intro r l h
    simp [retrieve_projected_time, find_projected_none_of_no_match r l h]
  · intro l hl
    match l with
    | p :: q :: rest => rfl

/-- A concrete candidate carrying source "src1" and a 300s forecast. -/
def candSrc1 : ProjCandidate := { source := some "src1", pronosticIV := some 300 }

/-- Witness for C2 at concrete inputs. -/
theorem C2_projected_time_resolver_witness :
    (∃ p, retrieve_projected_time (some "src1") (some [candSrc1]) = .ok (some p) ∧
      p ∈ [candSrc1] ∧ p.source = some "src1") ∧
    retrieve_projected_time (some "src1") (some []) = .error (.sourceNotFound "src1") ∧
    retrieve_projected_time (some "src1") none = .error (.sourceNotFound "src1") ∧
    retrieve_projected_time none (some [candSrc1]) = .ok (some candSrc1) ∧
    retrieve_projected_time none (some [candSrc1, candSrc1]) =
      .error .multipleProjectedNoSource :=
  ⟨C2_projected_time_resolver.1 "src1" [candSrc1]
      ⟨candSrc1, List.mem_cons_self _ _, rfl⟩,
    C2_projected_time_resolver.2.1 "src1" [] (by simp),
    C2_projected_time_resolver.2.2.1 "src1",
    C2_projected_time_resolver.2.2.2.1 candSrc1,
    C2_projected_time_resolver.2.2.2.2.1 [candSrc1, candSrc1] (by simp)⟩

/-- Scenario B's relevant stop: a departure time-block with no circulation
status and a single unreferenced projected-time candidate with
`pronosticIV = 900`. -/
def pdpScenarioB : Pdp :=
  { horaireVoyageurDepart := some { dateHeure := "2015-09-21T15:21:00+02:00" },
    listeHoraireProjeteDepart := some [{ pronosticIV := some 900 }] }

/-- C1: with a time-block present and no explicit circulation-status code, the
classifier resolves a projected time from the block's source-reference and
candidate list; resolving none, or a null `pronosticIV`, leaves the direction
unset; otherwise the direction gets status `update` and the resolved delay in
seconds as its delay.  Concretely (Scenario B), a single unreferenced
candidate with `pronosticIV = 900` yields departure status `update` with a
900-second delay. -/
theorem C1_no_status_code_classification :
    (∀ (st : StopTimeUpdate) (d : Direction) (pdp : Pdp) (tblock : TimeBlock),
      horaireVoyageur d pdp = some tblock →
      tblock.statutCirculationOPE = none →
      (retrieve_projected_time (sourceHoraireProjeteReference d pdp)
          (listeHoraireProjete d pdp) = .ok none →
        processDirection st d pdp = .ok (st, [])) ∧
      (∀ c, retrieve_projected_time (sourceHoraireProjeteReference d pdp)
          (listeHoraireProjete d pdp) = .ok (some c) → c.pronosticIV = none →
        processDirection st d pdp = .ok (st, [])) ∧
      (∀ c delaySec, retrieve_projected_time (sourceHoraireProjeteReference d pdp)
          (listeHoraireProjete d pdp) = .ok (some c) → c.pronosticIV = some delaySec →
        processDirection st d pdp =
          .ok (setDelay d (as_duration (some delaySec)) (setStatus d "update" st), []))) ∧
    makeStopTimeUpdate "stop1" (fun _ => none) pdpScenarioB =
      .ok ({ navStop := "stop1", departure_status := some "update",
             departure_delay := some { seconds := 900 } }, []) := by
  constructor
  · intro st d pdp tblock hblock hstatus
    refine ⟨?_, ?_, ?_⟩
    · intro hres
      simp [processDirection, hblock, hstatus, hres, Bind.bind, Except.bind]
    · intro c hres hiv
      simp [processDirection, hblock, hstatus, hres, hiv, Bind.bind, Except.bind]
    · intro c delaySec hres hiv
      simp [processDirection, hblock, hstatus, hres, hiv, Bind.bind, Except.bind]
  · rfl

/-- Witness for C1: the classifier applied to Scenario B's stop sets the
departure direction to `update` with a 900-second delay. -/
theorem C1_no_status_code_classification_witness :
    processDirection { navStop := "stop1" } .depart pdpScenarioB =
      .ok (setDelay .depart (as_duration (some 900))
        (setStatus .depart "update" { navStop := "stop1" }), []) :=
  (C1_no_status_code_classification.1 { navStop := "stop1" } .depart pdpScenarioB
      { dateHeure := "2015-09-21T15:21:00+02:00" } rfl rfl).2.2
    { pronosticIV := some 900 } 900 rfl rfl

/-- C3: a trip-level status `SUPPRIMEE` yields a TripUpdate with status
`delete` and an empty stop-time sequence, whatever the stop list holds (the
result does not change when the stop list is replaced), with no per-stop
diagnostics recorded. -/
theorem C3_supprimee_trip_deleted :
    ∀ (navMatch : Pdp → Option String) (msgResolver : String → Option String)
      (json_train : JsonTrain),
      json_train.statutOperationnel = "SUPPRIMEE" →
      makeTripUpdate navMatch msgResolver json_train =
        .ok ({ status := some "delete",
               message := tripMessage msgResolver json_train,
               stop_time_updates := [] }, []) ∧
      ∀ other_pdps : List Pdp,
        makeTripUpdate navMatch msgResolver
            { json_train with listePointDeParcours := other_pdps } =
          makeTripUpdate navMatch msgResolver json_train := by
  intro navMatch msgResolver json_train hstatus
  constructor
  · simp [makeTripUpdate, hstatus]
  · intro other_pdps
    simp [makeTripUpdate, hstatus, tripMessage]

/-- Witness for C3 at a concrete feed whose stop list is non-trivial. -/
theorem C3_supprimee_trip_deleted_witness :
    makeTripUpdate (fun _ => some "stop") (fun _ => none)
        { statutOperationnel := "SUPPRIMEE", listePointDeParcours := [pdpScenarioB] } =
      .ok ({ status := some "delete",
             message := tripMessage (fun _ => none)
               { statutOperationnel := "SUPPRIMEE", listePointDeParcours := [pdpScenarioB] },
             stop_time_updates := [] }, []) :=
  (C3_supprimee_trip_deleted (fun _ => some "stop") (fun _ => none)
    { statutOperationnel := "SUPPRIMEE", listePointDeParcours := [pdpScenarioB] } rfl).1

/-- C9: a trip-level status `AJOUTEE` is not an error: the builder records the
"not handled" diagnostic and returns a TripUpdate with no status assignment
and no stop-time data. -/
theorem C9_ajoutee_not_handled :
    ∀ (navMatch : Pdp → Option String) (msgResolver : String → Option String)
      (json_train : JsonTrain),
      json_train.statutOperationnel = "AJOUTEE" →
      makeTripUpdate navMatch msgResolver json_train =
        .ok ({ status := none,
               message := tripMessage msgResolver json_train,
               stop_time_updates := [] }, [ajouteeDiag]) := by
  intro navMatch msgResolver json_train hstatus
  simp [makeTripUpdate, hstatus]

/-- Witness for C9 at a concrete feed. -/
theorem C9_ajoutee_not_handled_witness :
    makeTripUpdate (fun _ => some "stop") (fun _ => none)
        { statutOperationnel := "AJOUTEE", listePointDeParcours := [pdpScenarioB] } =
      .ok ({ status := none,
             message := tripMessage (fun _ => none)
               { statutOperationnel := "AJOUTEE", listePointDeParcours := [pdpScenarioB] },
             stop_time_updates := [] }, [ajouteeDiag]) :=
  C9_ajoutee_not_handled (fun _ => some "stop") (fun _ => none)
    { statutOperationnel := "AJOUTEE", listePointDeParcours := [pdpScenarioB] } rfl

/-- If some stop of the loop is matched by the stop matcher and its
classification fails, the whole per-stop loop fails (possibly with an error
raised at an earlier stop). -/
theorem processPdps_error_of_mem (navMatch : Pdp → Option String)
    (msgResolver : String → Option String) (l : List Pdp) (pdp : Pdp)
    (hmem : pdp ∈ l) (hnav : (navMatch pdp).isSome)
    (hfail : ∀ navStop, ∃ e, makeStopTimeUpdate navStop msgResolver pdp = .error e) :
    ∃ e, processPdps navMatch msgResolver l = .error e := by
  induction l with
  | nil => simp at hmem
  | cons q rest ih =>
    match hm : navMatch q with
    | none =>
      have hq : pdp ≠ q := by
        intro he
        rw [he, hm] at hnav
        simp at hnav
      have hrest : pdp ∈ rest := by
        rcases List.mem_cons.mp hmem with he | h
        · exact absurd he hq
        · exact h
      rcases ih hrest with ⟨e, he⟩
      exact ⟨e, by simp [processPdps, hm, he]⟩
    | some navStop =>
      rcases List.mem_cons.mp hmem with he | hrest
      · subst he
        rcases hfail navStop with ⟨e, he⟩
        exact ⟨e, by simp [processPdps, hm, he, Bind.bind, Except.bind]⟩
      · match hmk : makeStopTimeUpdate navStop msgResolver q with
        | .error e => exact ⟨e, by simp [processPdps, hm, hmk, Bind.bind, Except.bind]⟩
        | .ok (st, l1) =>
          rcases ih hrest with ⟨e, he⟩
          exact ⟨e, by simp [processPdps, hm, hmk, he, Bind.bind, Except.bind]⟩

/-- C4: a time-block carrying a circulation-status code outside the four
handled ones makes the direction classifier fail with `invalidStatusCode`
naming the code and the direction; hence the stop's classification fails, and
when that stop is relevant (kept by the filter) and resolved by the stop
matcher on an `update`-classified trip, the whole feed message fails and no
TripUpdate is returned. -/
theorem C4_invalid_status_code :
    ∀ (d : Direction) (pdp : Pdp) (tblock : TimeBlock) (code : String),
      horaireVoyageur d pdp = some tblock →
      tblock.statutCirculationOPE = some code →
      code ≠ "SUPPRESSION" → code ≠ "SUPPRESSION_DETOURNEMENT" →
      code ≠ "CREATION" → code ≠ "DETOURNEMENT" →
      (∀ st, processDirection st d pdp =
        .error (.invalidStatusCode code (Direction.name d))) ∧
      (∀ (navStop : String) (msgResolver : String → Option String),
        ∃ e, makeStopTimeUpdate navStop msgResolver pdp = .error e) ∧
      (∀ (navMatch : Pdp → Option String) (msgResolver : String → Option String)
          (json_train : JsonTrain),
        pdp ∈ retrieve_interesting_pdp json_train.listePointDeParcours →
        (navMatch pdp).isSome →
        json_train.statutOperationnel ≠ "SUPPRIMEE" →
        json_train.statutOperationnel ≠ "AJOUTEE" →
        ∃ e, makeTripUpdate navMatch msgResolver json_train = .error e) := by
  intro d pdp tblock code hblock hstatus h1 h2 h3 h4
  have hdir : ∀ st, processDirection st d pdp =
      .error (.invalidStatusCode code (Direction.name d)) := by
    intro st
    simp [processDirection, hblock, hstatus, h1, h2, h3, h4]
  have hstop : ∀ (navStop : String) (msgResolver : String → Option String),
      ∃ e, makeStopTimeUpdate navStop msgResolver pdp = .error e := by
    intro navStop msgResolver
    match d, hdir with
    | .arrivee, hdir =>
      exact ⟨.invalidStatusCode code (Direction.name .arrivee),
        by simp [makeStopTimeUpdate, hdir, Bind.bind, Except.bind]⟩
    | .depart, hdir =>
      match hA : processDirection { navStop := navStop, message := stopMessage msgResolver pdp } .arrivee pdp with
      | .error e =>
        exact ⟨e, by simp [makeStopTimeUpdate, hA, Bind.bind, Except.bind]⟩
      | .ok (st1, l1) =>
        exact ⟨.invalidStatusCode code (Direction.name .depart),
          by simp [makeStopTimeUpdate, hA, hdir, Bind.bind, Except.bind]⟩
  refine ⟨hdir, hstop, ?_⟩
  intro navMatch msgResolver json_train hmem hnav hs1 hs2
  rcases processPdps_error_of_mem navMatch msgResolver
      (retrieve_interesting_pdp json_train.listePointDeParcours) pdp hmem hnav
      (fun navStop => hstop navStop msgResolver) with ⟨e, he⟩
  exact ⟨e, by simp [makeTripUpdate, hs1, hs2, he]⟩

/-- A departure time-block carrying the unexpected status code "INCONNU". -/
def blockBadW : TimeBlock :=
  { dateHeure := "2015-09-21T15:21:00+02:00", statutCirculationOPE := some "INCONNU" }

/-- A relevant stop whose departure block carries the unexpected code. -/
def pdpBadW : Pdp :=
  { horaireVoyageurDepart := some blockBadW,
    horaireVoyageurArrivee := some { dateHeure := "2015-09-21T15:40:00+02:00" } }

/-- A feed message (trip status `PERTURBEE`) containing that stop. -/
def jsonBadW : JsonTrain :=
  { numeroCourse := "6113", statutOperationnel := "PERTURBEE",
    listePointDeParcours := [pdpBadW] }

/-- Witness for C4 at the concrete code "INCONNU". -/
theorem C4_invalid_status_code_witness :
    (∀ st, processDirection st .depart pdpBadW =
      .error (.invalidStatusCode "INCONNU" (Direction.name .depart))) ∧
    (∃ e, makeStopTimeUpdate "stop1" (fun _ => none) pdpBadW = .error e) ∧
    (∃ e, makeTripUpdate (fun _ => some "stop1") (fun _ => none) jsonBadW = .error e) := by
  have h := C4_invalid_status_code .depart pdpBadW blockBadW "INCONNU" rfl rfl
    (by decide) (by decide) (by decide) (by decide)
  exact ⟨h.1, h.2.1 "stop1" (fun _ => none),
    h.2.2 (fun _ => some "stop1") (fun _ => none) jsonBadW (by decide) rfl
      (by decide) (by decide)⟩

/-- A successful direction classification either leaves `st_update` unchanged,
or sets the direction to `update` together with a present delay, or sets it to
`delete` (touching nothing else). -/
theorem processDirection_ok_shape (st : StopTimeUpdate) (d : Direction) (pdp : Pdp)
    (st' : StopTimeUpdate) (lg : List String)
    (h : processDirection st d pdp = .ok (st', lg)) :
    st' = st ∨
      (∃ ds, st' = setDelay d (as_duration (some ds)) (setStatus d "update" st)) ∨
      st' = setStatus d "delete" st := by
  match hB : horaireVoyageur d pdp with
  | none =>
    simp [processDirection, hB] at h
    exact Or.inl h.1.symm
  | some tblock =>
    match hS : tblock.statutCirculationOPE with
    | none =>
      match hR : retrieve_projected_time (sourceHoraireProjeteReference d pdp)
          (listeHoraireProjete d pdp) with
      | .error e => simp [processDirection, hB, hS, hR, Bind.bind, Except.bind] at h
      | .ok none =>
        simp [processDirection, hB, hS, hR, Bind.bind, Except.bind] at h
        exact Or.inl h.1.symm
      | .ok (some c) =>
        match hP : c.pronosticIV with
        | none =>
          simp [processDirection, hB, hS, hR, hP, Bind.bind, Except.bind] at h
          exact Or.inl h.1.symm
        | some ds =>
          simp [processDirection, hB, hS, hR, hP, Bind.bind, Except.bind] at h
          exact Or.inr (Or.inl ⟨ds, h.1.symm⟩)
    | some code =>
      by_cases h1 : code = "SUPPRESSION"
      · simp [processDirection, hB, hS, h1] at h
        exact Or.inr (Or.inr h.1.symm)
      · by_cases h2 : code = "SUPPRESSION_DETOURNEMENT"
        · simp [processDirection, hB, hS, h1, h2] at h
          exact Or.inr (Or.inr h.1.symm)
        · by_cases h3 : code = "CREATION"
          · simp [processDirection, hB, hS, h1, h2, h3] at h
            exact Or.inl h.1.symm
          · by_cases h4 : code = "DETOURNEMENT"
            · simp [processDirection, hB, hS, h1, h2, h3, h4] at h
              exact Or.inl h.1.symm
            · simp [processDirection, hB, hS, h1, h2, h3, h4] at h

/-- The delay/status coupling invariant on one `StopTimeUpdate`. -/
def stDelayInv (st : StopTimeUpdate) : Prop :=
  (st.arrival_status = some "update" → st.arrival_delay ≠ none) ∧
  (st.arrival_status = some "delete" → st.arrival_delay = none) ∧
  (st.departure_status = some "update" → st.departure_delay ≠ none) ∧
  (st.departure_status = some "delete" → st.departure_delay = none)

/-- Every successfully built `StopTimeUpdate` satisfies the invariant. -/
theorem makeStopTimeUpdate_inv (navStop : String) (msgResolver : String → Option String)
    (pdp : Pdp) (st : StopTimeUpdate) (lg : List String)
    (h : makeStopTimeUpdate navStop msgResolver pdp = .ok (st, lg)) : stDelayInv st := by
  match hA : processDirection { navStop := navStop, message := stopMessage msgResolver pdp } .arrivee pdp with
  | .error e => simp [makeStopTimeUpdate, hA, Bind.bind, Except.bind] at h
  | .ok (st1, l1) =>
    match hD : processDirection st1 .depart pdp with
    | .error e => simp [makeStopTimeUpdate, hA, hD, Bind.bind, Except.bind] at h
    | .ok (st2, l2) =>
      have hst : st = st2 := by
        simp [makeStopTimeUpdate, hA, hD, Bind.bind, Except.bind] at h
        exact h.1.symm
      subst hst
      have s1 := processDirection_ok_shape _ _ _ _ _ hA
      have s2 := processDirection_ok_shape _ _ _ _ _ hD
      rcases s1 with h1 | ⟨ds1, h1⟩ | h1 <;> subst h1 <;>
        rcases s2 with h2 | ⟨ds2, h2⟩ | h2 <;> subst h2 <;>
          simp [stDelayInv, setStatus, setDelay, as_duration]

/-- The invariant holds for every element produced by the per-stop loop. -/
theorem processPdps_inv (navMatch : Pdp → Option String)
    (msgResolver : String → Option String) (l : List Pdp)
    (sts : List StopTimeUpdate) (lg : List String)
    (h : processPdps navMatch msgResolver l = .ok (sts, lg)) :
    ∀ st ∈ sts, stDelayInv st := by
  induction l generalizing sts lg with
  | nil =>
    simp [processPdps] at h
    rw [h.1]
    simp
  | cons q rest ih =>
    match hm : navMatch q with
    | none =>
      rw [processPdps, hm] at h
      exact ih sts lg h
    | some navStop =>
      match hmk : makeStopTimeUpdate navStop msgResolver q with
      | .error e => simp [processPdps, hm, hmk, Bind.bind, Except.bind] at h
      | .ok (st1, l1) =>
        match hrest : processPdps navMatch msgResolver rest with
        | .error e => simp [processPdps, hm, hmk, hrest, Bind.bind, Except.bind] at h
        | .ok (sts2, l2) =>
          simp [processPdps, hm, hmk, hrest, Bind.bind, Except.bind] at h
          intro st hmem
          rw [← h.1] at hmem
          rcases List.mem_cons.mp hmem with he | hmem2
          · subst he
            exact makeStopTimeUpdate_inv navStop msgResolver q st l1 hmk
          · exact ih sts2 l2 hrest st hmem2

/-- C8: in every produced TripUpdate, a per-direction status `update` comes
with a present delay (possibly zero seconds) and a per-direction status
`delete` comes with no delay. -/
theorem C8_status_delay_invariant :
    ∀ (navMatch : Pdp → Option String) (msgResolver : String → Option String)
      (json_train : JsonTrain) (tu : TripUpdate) (lg : List String),
      makeTripUpdate navMatch msgResolver json_train = .ok (tu, lg) →
      ∀ st ∈ tu.stop_time_updates,
        (st.arrival_status = some "update" → st.arrival_delay ≠ none) ∧
        (st.arrival_status = some "delete" → st.arrival_delay = none) ∧
        (st.departure_status = some "update" → st.departure_delay ≠ none) ∧
        (st.departure_status = some "delete" → st.departure_delay = none) := by
  intro navMatch msgResolver json_train tu lg h
  by_cases hs1 : json_train.statutOperationnel = "SUPPRIMEE"
  · simp [makeTripUpdate, hs1] at h
    rw [← h.1]
    simp
  · by_cases hs2 : json_train.statutOperationnel = "AJOUTEE"
    · simp [makeTripUpdate, hs1, hs2] at h
      rw [← h.1]
      simp
    · match hp : processPdps navMatch msgResolver
          (retrieve_interesting_pdp json_train.listePointDeParcours) with
      | .error e => simp [makeTripUpdate, hs1, hs2, hp] at h
      | .ok (sts, lg2) =>
        simp [makeTripUpdate, hs1, hs2, hp] at h
        intro st hmem
        rw [← h.1] at hmem
        simp at hmem
        exact processPdps_inv navMatch msgResolver _ sts lg2 hp st hmem

/-- A stop whose arrival block carries the `SUPPRESSION` status code. -/
def pdpSupprW : Pdp :=
  { horaireVoyageurArrivee := some { dateHeure := "2015-09-21T15:40:00+02:00",
                                     statutCirculationOPE := some "SUPPRESSION" } }

/-- A feed with one delayed-departure stop and one suppressed-arrival stop. -/
def jsonC8W : JsonTrain :=
  { numeroCourse := "6113", statutOperationnel := "PERTURBEE",
    listePointDeParcours := [pdpScenarioB, pdpSupprW] }

/-- The suppressed-arrival StopTimeUpdate built from `jsonC8W`. -/
def stC8W : StopTimeUpdate :=
  { navStop := "stop1", arrival_status := some "delete" }

/-- Witness for C8 on the deleted-arrival stop of the concrete feed. -/
theorem C8_status_delay_invariant_witness :
    (stC8W.arrival_status = some "update" → stC8W.arrival_delay ≠ none) ∧
    (stC8W.arrival_status = some "delete" → stC8W.arrival_delay = none) ∧
    (stC8W.departure_status = some "update" → stC8W.departure_delay ≠ none) ∧
    (stC8W.departure_status = some "delete" → stC8W.departure_delay = none) :=
  C8_status_delay_invariant (fun _ => some "stop1") (fun _ => none) jsonC8W
    { status := some "update",
      stop_time_updates :=
        [{ navStop := "stop1", departure_status := some "update",
           departure_delay := some { seconds := 900 } }, stC8W] }
    [] rfl stC8W (by simp)

/-! ### Lemmas about the Stop Relevance Filter -/

theorem hasFollowingArrival_cons (p : Pdp) (l : List Pdp) :
    hasFollowingArrival (p :: l) =
      ((p.horaireVoyageurArrivee.isSome && is_station p) || hasFollowingArrival l) := by
  simp [hasFollowingArrival, List.any_cons]

/-- Filtering with the `picked_one` flag set preserves the existence of a
station with an arrival block. -/
theorem aux_true_preserves_following_arrival :
    ∀ l : List Pdp, hasFollowingArrival l = true →
      hasFollowingArrival (retrieve_interesting_pdp_aux l true) = true := by
  intro l
  induction l with
  | nil => simp [hasFollowingArrival]
  | cons p rest ih =>
    intro h
    by_cases hst : is_station p
    · match harr : p.horaireVoyageurArrivee with
      | some a =>
        have hk : retrieve_interesting_pdp_aux (p :: rest) true =
            p :: retrieve_interesting_pdp_aux rest true := by
          simp [retrieve_interesting_pdp_aux, hst, harr]
        rw [hk, hasFollowingArrival_cons, harr]
        simp [hst]
      | none =>
        rw [hasFollowingArrival_cons, harr] at h
        simp at h
        match hdep : p.horaireVoyageurDepart with
        | none =>
          have hk : retrieve_interesting_pdp_aux (p :: rest) true =
              retrieve_interesting_pdp_aux rest true := by
            simp [retrieve_interesting_pdp_aux, hst, harr, hdep]
          rw [hk]
          exact ih h
        | some dep =>
          have hfa : hasFollowingArrival (p :: rest) = true := by
            rw [hasFollowingArrival_cons, harr]
            simp [h]
          have hk : retrieve_interesting_pdp_aux (p :: rest) true =
              p :: retrieve_interesting_pdp_aux rest true := by
            simp [retrieve_interesting_pdp_aux, hst, harr, hdep, hfa]
          rw [hk, hasFollowingArrival_cons, harr]
          simp [ih h]
    · have hk : retrieve_interesting_pdp_aux (p :: rest) true =
          retrieve_interesting_pdp_aux rest true := by
        simp [retrieve_interesting_pdp_aux, hst]
      rw [hk]
      rw [hasFollowingArrival_cons] at h
      simp [hst] at h
      exact ih h

/-- Every point of the list that lacks an arrival block still has, from its
own position onward, a station with an arrival block. -/
def keptInvariant : List Pdp → Prop
  | [] => True
  | p :: rest =>
    (p.horaireVoyageurArrivee = none → hasFollowingArrival (p :: rest) = true) ∧
      keptInvariant rest

theorem aux_all_station :
    ∀ (l : List Pdp) (picked : Bool) (p : Pdp),
      p ∈ retrieve_interesting_pdp_aux l picked → is_station p = true := by
  intro l
  induction l with
  | nil => simp [retrieve_interesting_pdp_aux]
  | cons q rest ih =>
    intro picked p hp
    rw [retrieve_interesting_pdp_aux] at hp
    split at hp
    · exact ih picked p hp
    · split at hp
      · exact ih picked p hp
      · split at hp
        · exact ih picked p hp
        · split at hp
          · simp at hp
          · rcases List.mem_cons.mp hp with he | hm
            · subst he
              rename_i hc1 hc2 hc3 hc4
              simpa using hc2
            · exact ih true p hm

theorem aux_all_block :
    ∀ (l : List Pdp) (picked : Bool) (p : Pdp),
      p ∈ retrieve_interesting_pdp_aux l picked →
      (p.horaireVoyageurDepart.isSome || p.horaireVoyageurArrivee.isSome) = true := by
  intro l
  induction l with
  | nil => simp [retrieve_interesting_pdp_aux]
  | cons q rest ih =>
    intro picked p hp
    rw [retrieve_interesting_pdp_aux] at hp
    split at hp
    · exact ih picked p hp
    · split at hp
      · exact ih picked p hp
      · split at hp
        · exact ih picked p hp
        · split at hp
          · simp at hp
          · rcases List.mem_cons.mp hp with he | hm
            · subst he
              rename_i hc1 hc2 hc3 hc4
              rcases Bool.eq_false_or_eq_true p.horaireVoyageurDepart.isNone with hd | hd
              · have harr : p.horaireVoyageurArrivee.isNone = false := by
                  by_contra hcon
                  simp [Bool.not_eq_false] at hcon
                  exact hc3 (by simp [hd, hcon])
                have has : p.horaireVoyageurArrivee.isSome = true :=
                  (Option.isNone_eq_false_iff _).mp harr
                simp [has]
              · have hds : p.horaireVoyageurDepart.isSome = true :=
                  (Option.isNone_eq_false_iff _).mp hd
                simp [hds]
            · exact ih true p hm

theorem aux_keptInvariant :
    ∀ (l : List Pdp) (picked : Bool),
      keptInvariant (retrieve_interesting_pdp_aux l picked) := by
  intro l
  induction l with
  | nil => intro picked; trivial
  | cons q rest ih =>
    intro picked
    rw [retrieve_interesting_pdp_aux]
    split
    · exact ih picked
    · split
      · exact ih picked
      · split
        · exact ih picked
        · split
          · trivial
          · rename_i hc1 hc2 hc3 hc4
            refine ⟨?_, ih true⟩
            intro hqarr
            have hfa : hasFollowingArrival (q :: rest) = true := by
              by_contra hcon
              simp [Bool.not_eq_true] at hcon
              exact hc4 (by simp [hqarr, hcon])
            rw [hasFollowingArrival_cons, hqarr] at hfa
            simp at hfa
            rw [hasFollowingArrival_cons, hqarr]
            simp
            exact aux_true_preserves_following_arrival rest hfa

theorem aux_head_dep :
    ∀ (l : List Pdp) (p : Pdp) (r : List Pdp),
      retrieve_interesting_pdp_aux l false = p :: r →
      p.horaireVoyageurDepart.isSome = true := by
  intro l
  induction l with
  | nil => intro p r h; simp [retrieve_interesting_pdp_aux] at h
  | cons q rest ih =>
    intro p r h
    rw [retrieve_interesting_pdp_aux] at h
    split at h
    · exact ih p r h
    · split at h
      · exact ih p r h
      · split at h
        · exact ih p r h
        · split at h
          · simp at h
          · rename_i hc1 hc2 hc3 hc4
            have hq : q = p := (List.cons.injEq q _ p r).mp h |>.1
            subst hq
            simp at hc1
            exact Option.ne_none_iff_isSome.mp hc1

theorem aux_fixpoint_true :
    ∀ r : List Pdp,
      (∀ p ∈ r, is_station p = true) →
      (∀ p ∈ r, (p.horaireVoyageurDepart.isSome || p.horaireVoyageurArrivee.isSome) = true) →
      keptInvariant r →
      retrieve_interesting_pdp_aux r true = r := by
  intro r
  induction r with
  | nil => intros; rfl
  | cons p rest ih =>
    intro hstation hblock hinv
    have hst := hstation p (List.mem_cons_self _ _)
    have hbl := hblock p (List.mem_cons_self _ _)
    have htail : retrieve_interesting_pdp_aux rest true = rest :=
      ih (fun q hq => hstation q (List.mem_cons_of_mem _ hq))
        (fun q hq => hblock q (List.mem_cons_of_mem _ hq)) hinv.2
    match harr : p.horaireVoyageurArrivee with
    | some a =>
      simp [retrieve_interesting_pdp_aux, hst, harr, htail]
    | none =>
      have hdep : p.horaireVoyageurDepart.isSome = true := by
        rw [harr] at hbl
        simpa using hbl
      have hdepn : p.horaireVoyageurDepart.isNone = false :=
        (Option.isNone_eq_false_iff _).mpr hdep
      have hfa : hasFollowingArrival (p :: rest) = true := hinv.1 harr
      simp [retrieve_interesting_pdp_aux, hst, harr, hdepn, hfa, htail]

theorem aux_fixpoint_false :
    ∀ r : List Pdp,
      (∀ p ∈ r, is_station p = true) →
      (∀ p ∈ r, (p.horaireVoyageurDepart.isSome || p.horaireVoyageurArrivee.isSome) = true) →
      keptInvariant r →
      (∀ (p : Pdp) (rest2 : List Pdp), r = p :: rest2 → p.horaireVoyageurDepart.isSome = true) →
      retrieve_interesting_pdp_aux r false = r := by
  intro r hstation hblock hinv hhead
  match r with
  | [] => rfl
  | p :: rest =>
    have hdep : p.horaireVoyageurDepart.isSome = true := hhead p rest rfl
    have hdepn : p.horaireVoyageurDepart.isNone = false :=
      (Option.isNone_eq_false_iff _).mpr hdep
    have hst := hstation p (List.mem_cons_self _ _)
    have htail : retrieve_interesting_pdp_aux rest true = rest :=
      aux_fixpoint_true rest (fun q hq => hstation q (List.mem_cons_of_mem _ hq))
        (fun q hq => hblock q (List.mem_cons_of_mem _ hq)) hinv.2
    match harr : p.horaireVoyageurArrivee with
    | some a =>
      simp [retrieve_interesting_pdp_aux, hst, hdepn, harr, htail]
    | none =>
      have hfa : hasFollowingArrival (p :: rest) = true := hinv.1 harr
      simp [retrieve_interesting_pdp_aux, hst, hdepn, harr, hfa, htail]

/-- C6: the Stop Relevance Filter is idempotent: filtering an already
filtered list of circulation points returns it unchanged. -/
theorem C6_filter_idempotent :
    ∀ list_pdp : List Pdp,
      retrieve_interesting_pdp (retrieve_interesting_pdp list_pdp) =
        retrieve_interesting_pdp list_pdp := by
  intro list_pdp
  exact aux_fixpoint_false _
    (aux_all_station list_pdp false)
    (aux_all_block list_pdp false)
    (aux_keptInvariant list_pdp false)
    (fun p rest2 h => aux_head_dep list_pdp p rest2 h)

/-- A kept point without an arrival block always has, from its own position in
the input onward, a station with an arrival block. -/
theorem aux_mem_arr_none :
    ∀ (l : List Pdp) (picked : Bool) (pdp : Pdp),
      pdp ∈ retrieve_interesting_pdp_aux l picked →
      pdp.horaireVoyageurArrivee = none →
      ∃ l1 l2, l = l1 ++ pdp :: l2 ∧ hasFollowingArrival (pdp :: l2) = true := by
  intro l
  induction l with
  | nil => intro picked pdp hp; simp [retrieve_interesting_pdp_aux] at hp
  | cons q rest ih =>
    intro picked pdp hp harr
    rw [retrieve_interesting_pdp_aux] at hp
    split at hp
    · rcases ih picked pdp hp harr with ⟨l1, l2, heq, hfa⟩
      exact ⟨q :: l1, l2, by rw [heq]; rfl, hfa⟩
    · split at hp
      · rcases ih picked pdp hp harr with ⟨l1, l2, heq, hfa⟩
        exact ⟨q :: l1, l2, by rw [heq]; rfl, hfa⟩
      · split at hp
        · rcases ih picked pdp hp harr with ⟨l1, l2, heq, hfa⟩
          exact ⟨q :: l1, l2, by rw [heq]; rfl, hfa⟩
        · split at hp
          · simp at hp
          · rename_i hc1 hc2 hc3 hc4
            rcases List.mem_cons.mp hp with he | hm
            · subst he
              refine ⟨[], rest, rfl, ?_⟩
              by_contra hcon
              simp [Bool.not_eq_true] at hcon
              exact hc4 (by simp [harr, hcon])
            · rcases ih true pdp hm harr with ⟨l1, l2, heq, hfa⟩
              exact ⟨q :: l1, l2, by rw [heq]; rfl, hfa⟩

/-- C5: during the pass, a station point with a departure block and no
arrival block is kept exactly when some station point in the remainder of the
original list still has an arrival block; otherwise the pass stops there and
discards that point and everything after it.  Consequently any point of the
filter's output lacking an arrival block has a downstream station arrival in
the input, i.e. trailing points with no further-downstream arrival block
never appear in the output. -/
theorem C5_departure_only_kept_or_break :
    (∀ (pdp : Pdp) (rest : List Pdp) (picked : Bool),
      is_station pdp = true →
      pdp.horaireVoyageurDepart.isSome = true →
      pdp.horaireVoyageurArrivee = none →
      retrieve_interesting_pdp_aux (pdp :: rest) picked =
        if hasFollowingArrival (pdp :: rest) then
          pdp :: retrieve_interesting_pdp_aux rest true
        else []) ∧
    (∀ (l : List Pdp) (pdp : Pdp),
      pdp ∈ retrieve_interesting_pdp l →
      pdp.horaireVoyageurArrivee = none →
      ∃ l1 l2, l = l1 ++ pdp :: l2 ∧ hasFollowingArrival (pdp :: l2) = true) := by
  constructor
  · intro pdp rest picked hst hdep harr
    have hdepn : pdp.horaireVoyageurDepart.isNone = false :=
      (Option.isNone_eq_false_iff _).mpr hdep
    by_cases hfa : hasFollowingArrival (pdp :: rest) = true
    · simp [retrieve_interesting_pdp_aux, hst, hdepn, harr, hfa]
    · simp [Bool.not_eq_true] at hfa
      simp [retrieve_interesting_pdp_aux, hst, hdepn, harr, hfa]
  · intro l pdp hp harr
    exact aux_mem_arr_none l false pdp hp harr

/-- A list of points with departure blocks, the first of which carries an
out-of-set status code, and no arrival block anywhere downstream. -/
def pdpTrailW : Pdp :=
  { horaireVoyageurDepart := some { dateHeure := "2015-09-21T15:21:00+02:00" } }

/-- Witness for C5: with no downstream arrival the pass discards the point
(and the filter output is empty), with a downstream arrival it keeps it. -/
theorem C5_departure_only_kept_or_break_witness :
    retrieve_interesting_pdp_aux [pdpTrailW] false =
      (if hasFollowingArrival [pdpTrailW] then
        pdpTrailW :: retrieve_interesting_pdp_aux [] true
      else []) ∧
    retrieve_interesting_pdp_aux [pdpTrailW, pdpSupprW] false =
      (if hasFollowingArrival [pdpTrailW, pdpSupprW] then
        pdpTrailW :: retrieve_interesting_pdp_aux [pdpSupprW] true
      else []) :=
  ⟨C5_departure_only_kept_or_break.1 pdpTrailW [] false rfl rfl rfl,
    C5_departure_only_kept_or_break.1 pdpTrailW [pdpSupprW] false rfl rfl rfl⟩

/-- Before anything is picked, points without a departure block are skipped,
so a list with no departure block at all filters to nothing. -/
theorem aux_nil_of_no_dep :
    ∀ l : List Pdp, (∀ p ∈ l, p.horaireVoyageurDepart = none) →
      retrieve_interesting_pdp_aux l false = [] := by
  intro l
  induction l with
  | nil => intro _; rfl
  | cons q rest ih =>
    intro h
    have hq : q.horaireVoyageurDepart = none := h q (List.mem_cons_self _ _)
    have hrest := ih (fun p hp => h p (List.mem_cons_of_mem _ hp))
    simp [retrieve_interesting_pdp_aux, hq, hrest]

/-- C7: a feed whose stop list has no departure time-block anywhere filters to
an empty relevant-stop list, and the builder's `_get_vjs` then fails with the
empty-stop-list `InvalidFeed` error. -/
theorem C7_no_departure_invalid_feed :
    ∀ json_train : JsonTrain,
      (∀ p ∈ json_train.listePointDeParcours, p.horaireVoyageurDepart = none) →
      retrieve_interesting_pdp json_train.listePointDeParcours = [] ∧
      getVjsQuery json_train = .error .noValidStopTime := by
  intro json_train h
  have hempty : retrieve_interesting_pdp json_train.listePointDeParcours = [] :=
    aux_nil_of_no_dep _ h
  exact ⟨hempty, by simp [getVjsQuery, hempty]⟩

/-- Witness for C7: a feed with one arrival-only stop. -/
theorem C7_no_departure_invalid_feed_witness :
    retrieve_interesting_pdp
        (JsonTrain.listePointDeParcours
          { numeroCourse := "6113", statutOperationnel := "PERTURBEE",
            listePointDeParcours := [pdpSupprW] }) = [] ∧
    getVjsQuery
        { numeroCourse := "6113", statutOperationnel := "PERTURBEE",
          listePointDeParcours := [pdpSupprW] } = .error .noValidStopTime :=
  C7_no_departure_invalid_feed
    { numeroCourse := "6113", statutOperationnel := "PERTURBEE",
      listePointDeParcours := [pdpSupprW] }
    (by simp [pdpSupprW])

/-- The last element of a list satisfying `keptInvariant` has an arrival
block: were it missing, no station downstream of it could provide one. -/
theorem keptInvariant_getLast_arr :
    ∀ (r : List Pdp) (h : r ≠ []), keptInvariant r →
      (r.getLast h).horaireVoyageurArrivee.isSome = true := by
  intro r
  induction r with
  | nil => intro h; exact absurd rfl h
  | cons x rest ih =>
    intro h hinv
    cases rest with
    | nil =>
      by_cases harr : x.horaireVoyageurArrivee = none
      · have hfa := hinv.1 harr
        rw [hasFollowingArrival_cons, harr] at hfa
        simp [hasFollowingArrival] at hfa
      · simpa [List.getLast] using Option.ne_none_iff_isSome.mp harr
    | cons y rest2 =>
      rw [List.getLast_cons (List.cons_ne_nil y rest2)]
      exact ih (List.cons_ne_nil y rest2) hinv.2

/-- C10: a non-empty filter output starts with a point carrying a departure
block and ends with a point carrying an arrival block, so once `_get_vjs` has
passed its emptiness check the non-nullable extraction of the service start
and end times succeeds. -/
theorem C10_filter_output_ends_well_formed :
    ∀ (json_train : JsonTrain) (first : Pdp) (rest : List Pdp),
      retrieve_interesting_pdp json_train.listePointDeParcours = first :: rest →
      first.horaireVoyageurDepart.isSome = true ∧
      ((first :: rest).getLast
        (List.cons_ne_nil first rest)).horaireVoyageurArrivee.isSome = true ∧
      ∃ q : VjQuery, getVjsQuery json_train = .ok q := by
  intro json_train first rest h
  have hdep := aux_head_dep json_train.listePointDeParcours first rest h
  have hinv := aux_keptInvariant json_train.listePointDeParcours false
  rw [show retrieve_interesting_pdp_aux json_train.listePointDeParcours false =
    retrieve_interesting_pdp json_train.listePointDeParcours from rfl, h] at hinv
  have hlast := keptInvariant_getLast_arr (first :: rest) (List.cons_ne_nil first rest) hinv
  refine ⟨hdep, hlast, ?_⟩
  rcases Option.isSome_iff_exists.mp hdep with ⟨dep, hdepeq⟩
  rcases Option.isSome_iff_exists.mp hlast with ⟨arr, harreq⟩
  refine ⟨{ train_numbers := json_train.numeroCourse,
            vj_start := dep.dateHeure, vj_end := arr.dateHeure }, ?_⟩
  simp [getVjsQuery, h, hdepeq, harreq]

/-- Witness for C10 on a concrete two-stop feed. -/
theorem C10_filter_output_ends_well_formed_witness :
    pdpScenarioB.horaireVoyageurDepart.isSome = true ∧
    (([pdpScenarioB, pdpSupprW].getLast
      (List.cons_ne_nil pdpScenarioB [pdpSupprW])).horaireVoyageurArrivee).isSome = true ∧
    ∃ q : VjQuery, getVjsQuery jsonC8W = .ok q :=
  C10_filter_output_ends_well_formed jsonC8W pdpScenarioB [pdpSupprW] (by decide)
